import Mathlib

unseal Rat.mul Rat.inv Rat.add Rat.sub Rat.ofScientific

/-!
Shallow embedding of the EIP-1559-inspired dynamic pricing calculator from
`src/sdk/express/src/price-calculator/price.ts` and its configuration types
from `src/sdk/express/src/config/config.ts`.

Modelling conventions:
* JavaScript numbers are modelled as `ℚ` (the claims under study are exact
  arithmetic relations between the computed quantities).
* Timestamps (milliseconds since epoch) are modelled as `ℕ`.  The code
  computes `now - 1000` and `now - smoothingWindow * 1000` and compares map
  keys (all nonnegative bucket timestamps) against them; for nonnegative keys
  a comparison against a negative JS threshold behaves exactly like the
  comparison against the truncated-at-zero `ℕ` threshold, so `ℕ` subtraction
  is faithful here.
* `Date.now()` is injected as an explicit `now` parameter of each operation
  (each TypeScript method reads the clock once per call; all reads inside one
  synchronous method call are modelled as the same instant).
* The JavaScript `Map<number, number>` is modelled as an association list in
  insertion order with unique keys: `set` updates in place or appends,
  `delete`-while-iterating removes entries, iteration follows list order.
* The `Price` union type (`string | number | complex object`) is modelled by
  an inductive: `str q` is a parsable `"$..."` string with numeric value `q`,
  `num q` a plain number, `obj` a complex price object (the code never reads
  the inside of a complex object: it falls back).
* The `$`-prefixed `toFixed` string formatting on output paths is a
  presentation detail (binary floating-point rounding); the numeric values
  that are formatted are modelled exactly.
-/

namespace Autonome

/-- The `Price` union type of `x402/types` as used by the calculator:
a parsable dollar string, a plain number, or a complex price object. -/
inductive Price where
  | str (q : ℚ)
  | num (q : ℚ)
  | obj
  deriving DecidableEq, Repr

/-- `EIP1559InspiredConfig` from `src/sdk/express/src/config/config.ts`. -/
structure EIP1559InspiredConfig where
  minBaseFee : Price
  maxBaseFee : Price
  defaultFee : Price
  maxChangeRate : ℚ
  targetUtilization : ℚ
  smoothingWindow : ℕ
  elasticityMultiplier : ℚ
  adjustmentInterval : ℕ
  deriving DecidableEq, Repr

/-- A `Partial<EIP1559InspiredConfig>` value: each field optionally present. -/
structure ConfigPatch where
  minBaseFee : Option Price := none
  maxBaseFee : Option Price := none
  defaultFee : Option Price := none
  maxChangeRate : Option ℚ := none
  targetUtilization : Option ℚ := none
  smoothingWindow : Option ℕ := none
  elasticityMultiplier : Option ℚ := none
  adjustmentInterval : Option ℕ := none
  deriving DecidableEq, Repr

/-- The spread-merge `{ ...this.config, ...newConfig }` used by `updateConfig`. -/
def mergeConfig (c : EIP1559InspiredConfig) (p : ConfigPatch) : EIP1559InspiredConfig where
  minBaseFee := p.minBaseFee.getD c.minBaseFee
  maxBaseFee := p.maxBaseFee.getD c.maxBaseFee
  defaultFee := p.defaultFee.getD c.defaultFee
  maxChangeRate := p.maxChangeRate.getD c.maxChangeRate
  targetUtilization := p.targetUtilization.getD c.targetUtilization
  smoothingWindow := p.smoothingWindow.getD c.smoothingWindow
  elasticityMultiplier := p.elasticityMultiplier.getD c.elasticityMultiplier
  adjustmentInterval := p.adjustmentInterval.getD c.adjustmentInterval

/-- `EIP1559InspiredState` from `config.ts`: `requestCounts` is the
second-bucketed request count map (insertion-ordered association list). -/
structure EIP1559InspiredState where
  currentBaseFee : ℚ
  currentRPS : ℚ
  targetRPS : ℚ
  rpsHistory : List ℚ
  baseFeeHistory : List ℚ
  requestCounts : List (ℕ × ℕ)
  lastAdjustment : ℕ
  deriving DecidableEq, Repr

/-- JS `Map.get`: the value stored at key `k`, if present. -/
def mapGet (m : List (ℕ × ℕ)) (k : ℕ) : Option ℕ :=
  (m.find? (fun p => p.1 == k)).map Prod.snd

/-- JS `Map.set`: update the entry in place if the key exists, else append. -/
def mapSet (m : List (ℕ × ℕ)) (k : ℕ) (v : ℕ) : List (ℕ × ℕ) :=
  if m.any (fun p => p.1 == k) then
    m.map (fun p => if p.1 = k then (k, v) else p)
  else
    m ++ [(k, v)]

/-- `getNumberIntFromPrice(originalPrice, price)` from `price.ts`: a dollar
string is parsed, a number passes through, and a complex object falls back to
the parsed `originalPrice` when that is a string, else to the literal `0.001`. -/
def getNumberIntFromPrice (originalPrice price : Price) : ℚ :=
  match price with
  | .str q => q
  | .num q => q
  | .obj =>
    match originalPrice with
    | .str q => q
    | _ => 1 / 1000

/-- The constructor of `EIP1559InspiredDynamicPricingCalculator`:
`targetRPS = targetUtilization * 20` (assumed peak capacity of 20 rps),
`baseFeeHistory` starts holding the parsed default fee, and no validation of
the configuration is performed. -/
def mkState (c : EIP1559InspiredConfig) (now : ℕ) : EIP1559InspiredState :=
  let defaultFeeNum := getNumberIntFromPrice c.defaultFee c.defaultFee
  { currentBaseFee := defaultFeeNum
    currentRPS := 0
    targetRPS := c.targetUtilization * 20
    rpsHistory := []
    baseFeeHistory := [defaultFeeNum]
    requestCounts := []
    lastAdjustment := now }

/-- `recordRequest` from `price.ts`: bucket `now` to second granularity,
increment that bucket, then delete every bucket whose key is below
`now - smoothingWindow * 1000`. -/
def recordRequest (c : EIP1559InspiredConfig) (s : EIP1559InspiredState)
    (now : ℕ) : EIP1559InspiredState :=
  let bucket := now / 1000 * 1000
  let m := mapSet s.requestCounts bucket ((mapGet s.requestCounts bucket).getD 0 + 1)
  let cutoff := now - c.smoothingWindow * 1000
  { s with requestCounts := m.filter (fun p => !decide (p.1 < cutoff)) }

/-- The push-then-shift pattern used on both histories: append, then drop the
oldest entry when the length exceeds the capacity. -/
def pushEvict (l : List ℚ) (x : ℚ) (cap : ℕ) : List ℚ :=
  let h := l ++ [x]
  if cap < h.length then h.tail else h

/-- `getCurrentRPS` from `price.ts`.  Sums the buckets of the trailing second;
if positive, stores it as `currentRPS`, appends it to `rpsHistory` (bounded by
`smoothingWindow`) when the history is empty or the count moved by more than 1
from the last sample, and returns the raw count; otherwise returns (and
stores) the mean of `rpsHistory`, or 0 when the history is empty.
Returns the updated state together with the returned rate. -/
def getCurrentRPS (c : EIP1559InspiredConfig) (s : EIP1559InspiredState)
    (now : ℕ) : EIP1559InspiredState × ℚ :=
  let oneSecondAgo := now - 1000
  let count : ℕ :=
    s.requestCounts.foldl (fun acc p => if oneSecondAgo ≤ p.1 then acc + p.2 else acc) 0
  if 0 < count then
    let lastHistoryValue := (s.rpsHistory.getLast?).getD 0
    let hist :=
      if s.rpsHistory.length = 0 ∨ 1 < |(count : ℚ) - lastHistoryValue| then
        pushEvict s.rpsHistory (count : ℚ) c.smoothingWindow
      else
        s.rpsHistory
    ({ s with currentRPS := (count : ℚ), rpsHistory := hist }, (count : ℚ))
  else
    let avgRPS : ℚ :=
      if 0 < s.rpsHistory.length then
        s.rpsHistory.foldl (fun a b => a + b) 0 / s.rpsHistory.length
      else 0
    ({ s with currentRPS := avgRPS }, avgRPS)

/-- `adjustBaseFee` from `price.ts`: refresh the rate, guard `targetRPS = 0`
by returning the parsed default fee with no fee-state change, otherwise apply
the three-way multiplier on the utilization and clamp
`currentBaseFee * multiplier` with `Math.max(minFee, Math.min(_, maxFee))`,
recording the new fee and appending it to the bounded `baseFeeHistory`. -/
def adjustBaseFee (c : EIP1559InspiredConfig) (s : EIP1559InspiredState)
    (now : ℕ) : EIP1559InspiredState × ℚ :=
  let r := getCurrentRPS c s now
  let s1 := r.1
  let currentRPS := r.2
  let targetRPS := s1.targetRPS
  if targetRPS = 0 then
    (s1, getNumberIntFromPrice c.defaultFee c.defaultFee)
  else
    let utilization := currentRPS / targetRPS
    let baseFeeMultiplier : ℚ :=
      if 1 < utilization then
        let excessRatio := (utilization - 1) / 1
        1 + min (excessRatio * c.maxChangeRate * c.elasticityMultiplier) c.maxChangeRate
      else if utilization < c.targetUtilization then
        let shortageRatio := (c.targetUtilization - utilization) / c.targetUtilization
        1 - min (shortageRatio * c.maxChangeRate) c.maxChangeRate
      else 1
    let minFee := getNumberIntFromPrice c.minBaseFee c.minBaseFee
    let maxFee := getNumberIntFromPrice c.maxBaseFee c.maxBaseFee
    let newBaseFee := max minFee (min (s1.currentBaseFee * baseFeeMultiplier) maxFee)
    ({ s1 with
        currentBaseFee := newBaseFee
        baseFeeHistory := pushEvict s1.baseFeeHistory newBaseFee c.smoothingWindow },
     newBaseFee)

/-- `calculatePrice` (the `quote` entry point) from `price.ts`: record the
request, refresh the rate, and when `adjustmentInterval` has elapsed since
`lastAdjustment` run `adjustBaseFee` and stamp `lastAdjustment`.  The
`originalPrice`, `req` and `network` parameters of the TypeScript method are
unused by its body and omitted; the returned price is the numeric value that
the method formats as a `"$<fee.toFixed(4)>"` string. -/
def calculatePrice (c : EIP1559InspiredConfig) (s : EIP1559InspiredState)
    (now : ℕ) : EIP1559InspiredState × ℚ :=
  let s1 := recordRequest c s now
  let s2 := (getCurrentRPS c s1 now).1
  let s3 :=
    if (c.adjustmentInterval : ℤ) ≤ (now : ℤ) - (s2.lastAdjustment : ℤ) then
      { (adjustBaseFee c s2 now).1 with lastAdjustment := now }
    else s2
  (s3, s3.currentBaseFee)

/-- The metrics snapshot returned by `getEIP1559Metrics` (numeric values of
the formatted fields). -/
structure EIP1559Metrics where
  currentRPS : ℚ
  targetRPS : ℚ
  utilization : ℚ
  currentBaseFee : ℚ
  requestCount : ℕ
  activeSeconds : ℕ
  historySize : ℕ
  baseFeeHistory : List ℚ
  lastAdjustment : ℕ
  deriving DecidableEq, Repr

/-- `getEIP1559Metrics` from `price.ts`: a read of the stored state fields
(it reads `state.currentRPS` rather than invoking `getCurrentRPS`), with
`utilization` as a percentage guarded by `targetRPS > 0`, `requestCount` the
sum of the live bucket values, `activeSeconds` the bucket count, and the last
five entries of `baseFeeHistory` (`slice(-5)`). -/
def getEIP1559Metrics (_c : EIP1559InspiredConfig) (s : EIP1559InspiredState) :
    EIP1559Metrics :=
  let utilization : ℚ :=
    if 0 < s.targetRPS then s.currentRPS / s.targetRPS * 100 else 0
  { currentRPS := s.currentRPS
    targetRPS := s.targetRPS
    utilization := utilization
    currentBaseFee := s.currentBaseFee
    requestCount := (s.requestCounts.map Prod.snd).foldl (fun a b => a + b) 0
    activeSeconds := s.requestCounts.length
    historySize := s.rpsHistory.length
    baseFeeHistory := s.baseFeeHistory.drop (s.baseFeeHistory.length - 5)
    lastAdjustment := s.lastAdjustment }

/-- `reset` from `price.ts`: rebuild the state exactly like the constructor
(in particular `baseFeeHistory` again starts as the one-element list holding
the parsed default fee). -/
def reset (c : EIP1559InspiredConfig) (_s : EIP1559InspiredState) (now : ℕ) :
    EIP1559InspiredState :=
  mkState c now

/-- `forceAdjustment` from `price.ts`: run `adjustBaseFee` unconditionally and
stamp `lastAdjustment`. -/
def forceAdjustment (c : EIP1559InspiredConfig) (s : EIP1559InspiredState)
    (now : ℕ) : EIP1559InspiredState :=
  { (adjustBaseFee c s now).1 with lastAdjustment := now }

/-- `updateConfig` from `price.ts`: spread-merge the patch into the config and
recompute `targetRPS` from the assumed 20 rps peak capacity exactly when the
patch carries a `targetUtilization` field. -/
def updateConfig (c : EIP1559InspiredConfig) (s : EIP1559InspiredState)
    (p : ConfigPatch) : EIP1559InspiredConfig × EIP1559InspiredState :=
  let c2 := mergeConfig c p
  match p.targetUtilization with
  | some u => (c2, { s with targetRPS := u * 20 })
  | none => (c2, s)

/-- The public operations of the calculator, each taking the injected clock
value where the TypeScript method reads `Date.now()`. -/
inductive Op where
  | quote (now : ℕ)
  | adjust (now : ℕ)
  | force (now : ℕ)
  | resetOp (now : ℕ)
  | metricsOp
  | update (p : ConfigPatch)
  deriving DecidableEq, Repr

/-- One public method call on the calculator object. -/
def stepOp (cs : EIP1559InspiredConfig × EIP1559InspiredState) (op : Op) :
    EIP1559InspiredConfig × EIP1559InspiredState :=
  match op with
  | .quote now => (cs.1, (calculatePrice cs.1 cs.2 now).1)
  | .adjust now => (cs.1, (adjustBaseFee cs.1 cs.2 now).1)
  | .force now => (cs.1, forceAdjustment cs.1 cs.2 now)
  | .resetOp now => (cs.1, reset cs.1 cs.2 now)
  | .metricsOp => cs
  | .update p => updateConfig cs.1 cs.2 p

/-- A sequence of public method calls. -/
def runOps (cs : EIP1559InspiredConfig × EIP1559InspiredState) (ops : List Op) :
    EIP1559InspiredConfig × EIP1559InspiredState :=
  ops.foldl stepOp cs

/-! ### Claim-side vocabulary

Definitions phrased in the words of the specification, to be compared with
the embedded code above. -/

/-- The numeric value of a configured price field, exactly as the calculator
parses it (the code always passes the same field as both arguments). -/
def priceNum (p : Price) : ℚ :=
  getNumberIntFromPrice p p

/-- `clamp(x, lo, hi)` as the spec words it: `newFee` clamped into
`[minFee, maxFee]`. -/
def clamp (x lo hi : ℚ) : ℚ :=
  max lo (min x hi)

/-- The three-way multiplier of the spec control law, as a function of the
utilization. -/
def specMultiplier (c : EIP1559InspiredConfig) (utilization : ℚ) : ℚ :=
  if 1 < utilization then
    1 + min ((utilization - 1) * c.maxChangeRate * c.elasticityMultiplier) c.maxChangeRate
  else if utilization < c.targetUtilization then
    1 - min ((c.targetUtilization - utilization) / c.targetUtilization * c.maxChangeRate)
        c.maxChangeRate
  else 1

/-- Claim-side trailing-second demand: the sum of the bucket counts whose key
is at least `now - 1000`. -/
def trailingSecondSum (s : EIP1559InspiredState) (now : ℕ) : ℕ :=
  ((s.requestCounts.filter (fun p => decide (now - 1000 ≤ p.1))).map Prod.snd).sum

/-- Claim-side arithmetic mean of the smoothing history (0 when empty). -/
def historyMean (l : List ℚ) : ℚ :=
  if l = [] then 0 else l.sum / l.length

/-- Numeric config validity assumed by the fee-bounds claims:
`minFee <= defaultFee <= maxFee` on the parsed values. -/
def ValidFees (c : EIP1559InspiredConfig) : Prop :=
  priceNum c.minBaseFee ≤ priceNum c.defaultFee ∧
    priceNum c.defaultFee ≤ priceNum c.maxBaseFee

/-- The fee-bounds invariant `minFee <= currentFee <= maxFee`. -/
def FeeInRange (c : EIP1559InspiredConfig) (s : EIP1559InspiredState) : Prop :=
  priceNum c.minBaseFee ≤ s.currentBaseFee ∧ s.currentBaseFee ≤ priceNum c.maxBaseFee

/-- Restriction on an operation sequence under which the fee-bounds invariant
is preserved: every `updateConfig` patch leaves the monetary bounds untouched
and keeps the merged config numerically valid. -/
def BoundsSafeOps : EIP1559InspiredConfig → List Op → Prop
  | _, [] => True
  | c, .update p :: ops =>
      p.minBaseFee = none ∧ p.maxBaseFee = none ∧ ValidFees (mergeConfig c p) ∧
        BoundsSafeOps (mergeConfig c p) ops
  | c, _ :: ops => BoundsSafeOps c ops

/-- The bounded-history invariant of the spec, relative to the current
config. -/
def HistoryBounded (c : EIP1559InspiredConfig) (s : EIP1559InspiredState) : Prop :=
  s.baseFeeHistory.length ≤ c.smoothingWindow ∧
    s.rpsHistory.length ≤ c.smoothingWindow

/-- Restriction on an operation sequence under which the bounded-history
invariant is preserved: no `updateConfig` patch decreases `smoothingWindow`. -/
def WindowSafeOps : EIP1559InspiredConfig → List Op → Prop
  | _, [] => True
  | c, .update p :: ops =>
      c.smoothingWindow ≤ (mergeConfig c p).smoothingWindow ∧
        WindowSafeOps (mergeConfig c p) ops
  | c, _ :: ops => WindowSafeOps c ops

/-! ### Concrete configurations and states used by witnesses and
counterexamples -/

/-- The documented default configuration of `createEIP1559Config` with the
`$`-strings parsed (`minBaseFee="$0.001"`, `maxBaseFee="$0.05"`,
`defaultFee="$0.001"`, `maxChangeRate=0.125`, `targetUtilization=0.5`,
`smoothingWindow=30`, `elasticityMultiplier=2.0`,
`adjustmentInterval=10000`). -/
def cfgStd : EIP1559InspiredConfig where
  minBaseFee := .str (1 / 1000)
  maxBaseFee := .str (1 / 20)
  defaultFee := .str (1 / 1000)
  maxChangeRate := 1 / 8
  targetUtilization := 1 / 2
  smoothingWindow := 30
  elasticityMultiplier := 2
  adjustmentInterval := 10000

/-- A config whose default fee (`$0.5`) lies above its max fee (`$0.05`). -/
def cfgBadDefault : EIP1559InspiredConfig :=
  { cfgStd with defaultFee := .str (1 / 2) }

/-- A valid config (`default $0.04` inside `[$0.001, $0.05]`) from which a
bounds-shrinking reconfiguration will strand the current fee. -/
def cfgHighDefault : EIP1559InspiredConfig :=
  { cfgStd with defaultFee := .str (1 / 25) }

/-- The patch that shrinks `maxBaseFee` to `$0.01` and `defaultFee` to
`$0.005` (the merged config is still numerically valid). -/
def shrinkPatch : ConfigPatch :=
  { maxBaseFee := some (.str (1 / 100)), defaultFee := some (.str (1 / 200)) }

/-- A config with a one-second smoothing window. -/
def cfgWin1 : EIP1559InspiredConfig :=
  { cfgStd with smoothingWindow := 1 }

/-- A config with a two-second smoothing window. -/
def cfgWin2 : EIP1559InspiredConfig :=
  { cfgStd with smoothingWindow := 2 }

/-- A degenerate config with `targetUtilization = 0`, so that the derived
`targetRPS = 0 * 20 = 0`. -/
def cfgZeroTarget : EIP1559InspiredConfig :=
  { cfgStd with targetUtilization := 0 }

/-- The invalid config of the construction-validation claim: `minBaseFee`
(`$0.05`) above `maxBaseFee` (`$0.001`), `defaultFee = $0.03`. -/
def cfgMinAboveMax : EIP1559InspiredConfig :=
  { cfgStd with
      minBaseFee := .str (1 / 20)
      maxBaseFee := .str (1 / 1000)
      defaultFee := .str (3 / 100) }

/-- A reachable-looking state carrying 15 requests in the current second
against a target of 10 rps: utilization 1.5. -/
def stBurst : EIP1559InspiredState where
  currentBaseFee := 1 / 1000
  currentRPS := 0
  targetRPS := 10
  rpsHistory := []
  baseFeeHistory := [1 / 1000]
  requestCounts := [(0, 15)]
  lastAdjustment := 0

/-! ### Helper lemmas -/

lemma getCurrentRPS_targetRPS (c : EIP1559InspiredConfig) (s : EIP1559InspiredState)
    (now : ℕ) : ((getCurrentRPS c s now).1).targetRPS = s.targetRPS := by
  unfold getCurrentRPS
  dsimp only
  split <;> rfl

lemma getCurrentRPS_currentBaseFee (c : EIP1559InspiredConfig) (s : EIP1559InspiredState)
    (now : ℕ) : ((getCurrentRPS c s now).1).currentBaseFee = s.currentBaseFee := by
  unfold getCurrentRPS
  dsimp only
  split <;> rfl

lemma getCurrentRPS_baseFeeHistory (c : EIP1559InspiredConfig) (s : EIP1559InspiredState)
    (now : ℕ) : ((getCurrentRPS c s now).1).baseFeeHistory = s.baseFeeHistory := by
  unfold getCurrentRPS
  dsimp only
  split <;> rfl

lemma getCurrentRPS_requestCounts (c : EIP1559InspiredConfig) (s : EIP1559InspiredState)
    (now : ℕ) : ((getCurrentRPS c s now).1).requestCounts = s.requestCounts := by
  unfold getCurrentRPS
  dsimp only
  split <;> rfl

lemma getCurrentRPS_lastAdjustment (c : EIP1559InspiredConfig) (s : EIP1559InspiredState)
    (now : ℕ) : ((getCurrentRPS c s now).1).lastAdjustment = s.lastAdjustment := by
  unfold getCurrentRPS
  dsimp only
  split <;> rfl

/-- The request-counting loop of `getCurrentRPS` accumulates exactly the sum
of the counts of the buckets inside the trailing window. -/
lemma foldl_count_eq (t : ℕ) (l : List (ℕ × ℕ)) (a : ℕ) :
    l.foldl (fun acc p => if t ≤ p.1 then acc + p.2 else acc) a
      = a + ((l.filter (fun p => decide (t ≤ p.1))).map Prod.snd).sum := by
  induction l generalizing a with
  | nil => simp
  | cons hd tl ih =>
    by_cases h : t ≤ hd.1
    · simp [List.foldl_cons, List.filter_cons, h, ih, Nat.add_assoc]
    · simp [List.foldl_cons, List.filter_cons, h, ih]

/-- The history-summing loop of `getCurrentRPS` computes `List.sum`. -/
lemma foldl_add_eq_sum (l : List ℚ) (a : ℚ) :
    l.foldl (fun x y => x + y) a = a + l.sum := by
  induction l generalizing a with
  | nil => simp
  | cons hd tl ih => simp [List.foldl_cons, ih, add_assoc]

/-- Push-then-shift keeps a history at or below its capacity. -/
lemma pushEvict_length_le (l : List ℚ) (x : ℚ) (cap : ℕ)
    (h : l.length ≤ cap) : (pushEvict l x cap).length ≤ cap := by
  unfold pushEvict
  dsimp only
  split
  · simp only [List.tail_append_of_ne_nil, List.length_tail, List.length_append,
      List.length_cons, List.length_nil]
    omega
  · simp only [List.length_append, List.length_cons, List.length_nil] at *
    omega

lemma minFee_le_maxFee (c : EIP1559InspiredConfig) (hv : ValidFees c) :
    priceNum c.minBaseFee ≤ priceNum c.maxBaseFee :=
  hv.1.trans hv.2

lemma adjustBaseFee_feeInRange (c : EIP1559InspiredConfig) (s : EIP1559InspiredState)
    (now : ℕ) (hv : ValidFees c) (h : FeeInRange c s) :
    FeeInRange c ((adjustBaseFee c s now).1) := by
  unfold adjustBaseFee
  dsimp only
  split
  · exact ⟨by rw [getCurrentRPS_currentBaseFee]; exact h.1,
      by rw [getCurrentRPS_currentBaseFee]; exact h.2⟩
  · exact ⟨le_max_left _ _, max_le (minFee_le_maxFee c hv) (min_le_right _ _)⟩

lemma calculatePrice_feeInRange (c : EIP1559InspiredConfig) (s : EIP1559InspiredState)
    (now : ℕ) (hv : ValidFees c) (h : FeeInRange c s) :
    FeeInRange c ((calculatePrice c s now).1) := by
  have h1 : FeeInRange c (recordRequest c s now) := h
  have h2 : FeeInRange c ((getCurrentRPS c (recordRequest c s now) now).1) :=
    ⟨by rw [getCurrentRPS_currentBaseFee]; exact h1.1,
     by rw [getCurrentRPS_currentBaseFee]; exact h1.2⟩
  unfold calculatePrice
  dsimp only
  split
  · exact adjustBaseFee_feeInRange c _ now hv h2
  · exact h2

lemma forceAdjustment_feeInRange (c : EIP1559InspiredConfig) (s : EIP1559InspiredState)
    (now : ℕ) (hv : ValidFees c) (h : FeeInRange c s) :
    FeeInRange c (forceAdjustment c s now) :=
  adjustBaseFee_feeInRange c s now hv h

lemma reset_feeInRange (c : EIP1559InspiredConfig) (s : EIP1559InspiredState)
    (now : ℕ) (hv : ValidFees c) : FeeInRange c (reset c s now) :=
  ⟨hv.1, hv.2⟩

lemma updateConfig_fst (c : EIP1559InspiredConfig) (s : EIP1559InspiredState)
    (p : ConfigPatch) : (updateConfig c s p).1 = mergeConfig c p := by
  unfold updateConfig
  cases p.targetUtilization <;> rfl

lemma updateConfig_currentBaseFee (c : EIP1559InspiredConfig) (s : EIP1559InspiredState)
    (p : ConfigPatch) : (updateConfig c s p).2.currentBaseFee = s.currentBaseFee := by
  unfold updateConfig
  cases p.targetUtilization <;> rfl

lemma updateConfig_feeInRange (c : EIP1559InspiredConfig) (s : EIP1559InspiredState)
    (p : ConfigPatch) (hmin : p.minBaseFee = none) (hmax : p.maxBaseFee = none)
    (h : FeeInRange c s) :
    FeeInRange (updateConfig c s p).1 (updateConfig c s p).2 := by
  have e1 : (updateConfig c s p).1.minBaseFee = c.minBaseFee := by
    rw [updateConfig_fst]; unfold mergeConfig; rw [hmin]; rfl
  have e2 : (updateConfig c s p).1.maxBaseFee = c.maxBaseFee := by
    rw [updateConfig_fst]; unfold mergeConfig; rw [hmax]; rfl
  exact ⟨by rw [e1, updateConfig_currentBaseFee]; exact h.1,
    by rw [e2, updateConfig_currentBaseFee]; exact h.2⟩

lemma runOps_fee_bounds (ops : List Op) :
    ∀ (c : EIP1559InspiredConfig) (s : EIP1559InspiredState),
      ValidFees c → FeeInRange c s → BoundsSafeOps c ops →
        ValidFees (runOps (c, s) ops).1 ∧
          FeeInRange (runOps (c, s) ops).1 (runOps (c, s) ops).2 := by
  induction ops with
  | nil => exact fun c s hv h _ => ⟨hv, h⟩
  | cons op ops ih =>
    intro c s hv h hops
    cases op with
    | quote now => exact ih c _ hv (calculatePrice_feeInRange c s now hv h) hops
    | adjust now => exact ih c _ hv (adjustBaseFee_feeInRange c s now hv h) hops
    | force now => exact ih c _ hv (forceAdjustment_feeInRange c s now hv h) hops
    | resetOp now => exact ih c _ hv (reset_feeInRange c s now hv) hops
    | metricsOp => exact ih c s hv h hops
    | update p =>
      obtain ⟨hmin, hmax, hvalid, hrest⟩ := hops
      have hrange := updateConfig_feeInRange c s p hmin hmax h
      have hc := updateConfig_fst c s p
      have hv2 : ValidFees (updateConfig c s p).1 := by rw [hc]; exact hvalid
      have hr2 : BoundsSafeOps (updateConfig c s p).1 ops := by rw [hc]; exact hrest
      exact ih (updateConfig c s p).1 (updateConfig c s p).2 hv2 hrange hr2

lemma getCurrentRPS_rpsHistory_le (c : EIP1559InspiredConfig) (s : EIP1559InspiredState)
    (now : ℕ) (h : s.rpsHistory.length ≤ c.smoothingWindow) :
    ((getCurrentRPS c s now).1).rpsHistory.length ≤ c.smoothingWindow := by
  unfold getCurrentRPS
  dsimp only
  split
  · split
    · exact pushEvict_length_le _ _ _ h
    · exact h
  · exact h

lemma adjustBaseFee_historyBounded (c : EIP1559InspiredConfig) (s : EIP1559InspiredState)
    (now : ℕ) (h : HistoryBounded c s) :
    HistoryBounded c ((adjustBaseFee c s now).1) := by
  unfold adjustBaseFee
  dsimp only
  split
  · exact ⟨by rw [getCurrentRPS_baseFeeHistory]; exact h.1,
      getCurrentRPS_rpsHistory_le c s now h.2⟩
  · constructor
    · apply pushEvict_length_le
      rw [getCurrentRPS_baseFeeHistory]
      exact h.1
    · exact getCurrentRPS_rpsHistory_le c s now h.2

lemma calculatePrice_historyBounded (c : EIP1559InspiredConfig) (s : EIP1559InspiredState)
    (now : ℕ) (h : HistoryBounded c s) :
    HistoryBounded c ((calculatePrice c s now).1) := by
  have h1 : HistoryBounded c (recordRequest c s now) := h
  have h2 : HistoryBounded c ((getCurrentRPS c (recordRequest c s now) now).1) :=
    ⟨by rw [getCurrentRPS_baseFeeHistory]; exact h1.1,
     getCurrentRPS_rpsHistory_le c _ now h1.2⟩
  unfold calculatePrice
  dsimp only
  split
  · exact adjustBaseFee_historyBounded c _ now h2
  · exact h2

lemma reset_historyBounded (c : EIP1559InspiredConfig) (s : EIP1559InspiredState)
    (now : ℕ) (hsw : 0 < c.smoothingWindow) :
    HistoryBounded c (reset c s now) :=
  ⟨hsw, Nat.zero_le _⟩

lemma updateConfig_histories (c : EIP1559InspiredConfig) (s : EIP1559InspiredState)
    (p : ConfigPatch) :
    (updateConfig c s p).2.baseFeeHistory = s.baseFeeHistory ∧
      (updateConfig c s p).2.rpsHistory = s.rpsHistory := by
  unfold updateConfig
  cases p.targetUtilization <;> exact ⟨rfl, rfl⟩

lemma updateConfig_historyBounded (c : EIP1559InspiredConfig) (s : EIP1559InspiredState)
    (p : ConfigPatch) (hw : c.smoothingWindow ≤ (mergeConfig c p).smoothingWindow)
    (h : HistoryBounded c s) :
    HistoryBounded (updateConfig c s p).1 (updateConfig c s p).2 := by
  constructor
  · rw [updateConfig_fst, (updateConfig_histories c s p).1]
    exact h.1.trans hw
  · rw [updateConfig_fst, (updateConfig_histories c s p).2]
    exact h.2.trans hw

lemma runOps_history_bounded (ops : List Op) :
    ∀ (c : EIP1559InspiredConfig) (s : EIP1559InspiredState),
      0 < c.smoothingWindow → HistoryBounded c s → WindowSafeOps c ops →
        0 < (runOps (c, s) ops).1.smoothingWindow ∧
          HistoryBounded (runOps (c, s) ops).1 (runOps (c, s) ops).2 := by
  induction ops with
  | nil => exact fun c s hsw h _ => ⟨hsw, h⟩
  | cons op ops ih =>
    intro c s hsw h hops
    cases op with
    | quote now => exact ih c _ hsw (calculatePrice_historyBounded c s now h) hops
    | adjust now => exact ih c _ hsw (adjustBaseFee_historyBounded c s now h) hops
    | force now => exact ih c _ hsw (adjustBaseFee_historyBounded c s now h) hops
    | resetOp now => exact ih c _ hsw (reset_historyBounded c s now hsw) hops
    | metricsOp => exact ih c s hsw h hops
    | update p =>
      obtain ⟨hw, hrest⟩ := hops
      have hb := updateConfig_historyBounded c s p hw h
      have hc := updateConfig_fst c s p
      have hsw2 : 0 < (updateConfig c s p).1.smoothingWindow := by
        rw [hc]; exact hsw.trans_le hw
      have hr2 : WindowSafeOps (updateConfig c s p).1 ops := by rw [hc]; exact hrest
      exact ih (updateConfig c s p).1 (updateConfig c s p).2 hsw2 hb hr2

/-! ### Claim theorems -/

/-- C1 (amended): for every config whose parsed fees satisfy
`minFee <= defaultFee <= maxFee`, and every sequence of public operations in
which each `updateConfig` patch leaves the monetary bounds untouched and keeps
the merged config numerically valid, every reachable state (including the
state immediately after construction, `ops = []`) satisfies
`minFee <= currentFee <= maxFee` for the then-current config. -/
theorem fee_bounds_invariant (c : EIP1559InspiredConfig) (now0 : ℕ) (ops : List Op)
    (hv : ValidFees c) (hops : BoundsSafeOps c ops) :
    priceNum (runOps (c, mkState c now0) ops).1.minBaseFee
        ≤ (runOps (c, mkState c now0) ops).2.currentBaseFee ∧
      (runOps (c, mkState c now0) ops).2.currentBaseFee
        ≤ priceNum (runOps (c, mkState c now0) ops).1.maxBaseFee :=
  (runOps_fee_bounds ops c (mkState c now0) hv ⟨hv.1, hv.2⟩ hops).2

/-- C1 witness: the invariant evaluated on the documented default config after
a forced adjustment followed by a quote. -/
theorem fee_bounds_invariant_witness :
    ValidFees cfgStd ∧ BoundsSafeOps cfgStd [Op.force 100, Op.quote 20000] ∧
      (priceNum (runOps (cfgStd, mkState cfgStd 0) [Op.force 100, Op.quote 20000]).1.minBaseFee
          ≤ (runOps (cfgStd, mkState cfgStd 0) [Op.force 100, Op.quote 20000]).2.currentBaseFee ∧
        (runOps (cfgStd, mkState cfgStd 0) [Op.force 100, Op.quote 20000]).2.currentBaseFee
          ≤ priceNum (runOps (cfgStd, mkState cfgStd 0)
              [Op.force 100, Op.quote 20000]).1.maxBaseFee) :=
  ⟨⟨by decide, by decide⟩, trivial,
    fee_bounds_invariant cfgStd 0 [Op.force 100, Op.quote 20000] ⟨by decide, by decide⟩ trivial⟩

/-- C1 counterexample: the claim as stated (any config, any operations) is
false.  (a) The constructor performs no clamping: with `defaultFee = $0.5`
above `maxBaseFee = $0.05` the fee starts at `0.5`, outside the band.
(b) Even from a numerically valid config, an `updateConfig` that shrinks
`maxBaseFee` to a still-valid config strands `currentFee` above the new max. -/
theorem fee_bounds_break :
    ((mkState cfgBadDefault 0).currentBaseFee = 1 / 2 ∧
      ¬ (mkState cfgBadDefault 0).currentBaseFee ≤ priceNum cfgBadDefault.maxBaseFee) ∧
      ((runOps (cfgHighDefault, mkState cfgHighDefault 0)
            [Op.update shrinkPatch]).2.currentBaseFee = 1 / 25 ∧
        ValidFees cfgHighDefault ∧
        ValidFees (mergeConfig cfgHighDefault shrinkPatch) ∧
        ¬ (runOps (cfgHighDefault, mkState cfgHighDefault 0)
              [Op.update shrinkPatch]).2.currentBaseFee
            ≤ priceNum (runOps (cfgHighDefault, mkState cfgHighDefault 0)
                [Op.update shrinkPatch]).1.maxBaseFee) :=
  ⟨⟨by decide, by decide⟩,
    ⟨by decide, ⟨by decide, by decide⟩, ⟨by decide, by decide⟩, by decide⟩⟩

/-- C3: the constructor performs no configuration validation at all: with
`minBaseFee = $0.05` strictly above `maxBaseFee = $0.001` it still constructs
a working state whose fee is the parsed `defaultFee = $0.03` (the embedded
constructor is total, mirroring the TypeScript constructor, which has no
throwing validation path — it never fails fast). -/
theorem constructor_accepts_invalid_config :
    priceNum cfgMinAboveMax.maxBaseFee < priceNum cfgMinAboveMax.minBaseFee ∧
      (mkState cfgMinAboveMax 0).currentBaseFee = 3 / 100 ∧
      (mkState cfgMinAboveMax 0).baseFeeHistory = [3 / 100] :=
  ⟨by decide, by decide, by decide⟩

/-- C5 (amended): immediately after `recordRequest(t)` the bucket map holds no
key strictly below `t - smoothingWindow * 1000`; the purge belongs to the
record path only — `getCurrentRPS` does not purge. -/
theorem recordRequest_purge_invariant (c : EIP1559InspiredConfig)
    (s : EIP1559InspiredState) (now : ℕ) :
    ((recordRequest c s now).requestCounts.all
      (fun p => !decide (p.1 < now - c.smoothingWindow * 1000))) = true := by
  unfold recordRequest
  dsimp only
  rw [List.all_eq_true]
  intro p hp
  rw [List.mem_filter] at hp
  exact hp.2

/-- C5 counterexample: the claim as stated is false for `currentRate`:
with a one-second window, record at `t = 0` and read at `t = 5000`; the read
leaves the stale bucket `0` in the map even though `0 < 5000 - 1 * 1000`
(`getCurrentRPS` only sums, it never deletes). -/
theorem getCurrentRPS_no_purge :
    ((getCurrentRPS cfgWin1 (recordRequest cfgWin1 (mkState cfgWin1 0) 0) 5000).1).requestCounts
        = [(0, 1)] ∧
      (0 : ℕ) < 5000 - cfgWin1.smoothingWindow * 1000 :=
  ⟨by decide, by decide⟩

/-- C6: when the stored `targetRPS` is zero, `adjustBaseFee` returns the
parsed numeric `defaultFee` and leaves `currentBaseFee` and `baseFeeHistory`
untouched: the division-by-zero branch is guarded and nothing throws (the
embedded operations are total). -/
theorem adjustBaseFee_zero_target (c : EIP1559InspiredConfig)
    (s : EIP1559InspiredState) (now : ℕ) (h : s.targetRPS = 0) :
    (adjustBaseFee c s now).2 = getNumberIntFromPrice c.defaultFee c.defaultFee ∧
      ((adjustBaseFee c s now).1).currentBaseFee = s.currentBaseFee ∧
      ((adjustBaseFee c s now).1).baseFeeHistory = s.baseFeeHistory := by
  have ht : ((getCurrentRPS c s now).1).targetRPS = 0 := by
    rw [getCurrentRPS_targetRPS]; exact h
  unfold adjustBaseFee
  dsimp only
  rw [if_pos ht]
  exact ⟨rfl, getCurrentRPS_currentBaseFee c s now, getCurrentRPS_baseFeeHistory c s now⟩

/-- C6 witness: with `targetUtilization = 0` the derived target is `0 * 20 = 0`
and the guard branch is exercised at a concrete input. -/
theorem adjustBaseFee_zero_target_witness :
    (mkState cfgZeroTarget 0).targetRPS = 0 ∧
      ((adjustBaseFee cfgZeroTarget (mkState cfgZeroTarget 0) 5).2
          = getNumberIntFromPrice cfgZeroTarget.defaultFee cfgZeroTarget.defaultFee ∧
        ((adjustBaseFee cfgZeroTarget (mkState cfgZeroTarget 0) 5).1).currentBaseFee
          = (mkState cfgZeroTarget 0).currentBaseFee ∧
        ((adjustBaseFee cfgZeroTarget (mkState cfgZeroTarget 0) 5).1).baseFeeHistory
          = (mkState cfgZeroTarget 0).baseFeeHistory) :=
  ⟨by decide, adjustBaseFee_zero_target cfgZeroTarget (mkState cfgZeroTarget 0) 5 (by decide)⟩

/-- C7 (amended): `reset` rebuilds the constructor state: the fee returns to
the parsed `defaultFee`, the smoothing history and bucket map are cleared, and
metrics report zero rate and zero request count — but `baseFeeHistory` is
reinitialized to the one-element list holding the default fee, not cleared to
empty. -/
theorem reset_restores_defaults (c : EIP1559InspiredConfig)
    (s : EIP1559InspiredState) (now : ℕ) :
    (reset c s now).currentBaseFee = getNumberIntFromPrice c.defaultFee c.defaultFee ∧
      (reset c s now).baseFeeHistory = [getNumberIntFromPrice c.defaultFee c.defaultFee] ∧
      (reset c s now).rpsHistory = [] ∧
      (reset c s now).requestCounts = [] ∧
      (getEIP1559Metrics c (reset c s now)).currentRPS = 0 ∧
      (getEIP1559Metrics c (reset c s now)).requestCount = 0 :=
  ⟨rfl, rfl, rfl, rfl, rfl, rfl⟩

/-- C7 counterexample: the claim as stated says the fee history is cleared by
`reset`; on the default config, after an adjustment and a reset the history is
the one-element list `[0.001]`, not the empty list. -/
theorem reset_keeps_default_in_history :
    (reset cfgStd (forceAdjustment cfgStd (mkState cfgStd 0) 0) 5).baseFeeHistory
        = [1 / 1000] ∧
      (reset cfgStd (forceAdjustment cfgStd (mkState cfgStd 0) 0) 5).baseFeeHistory ≠ [] :=
  ⟨by decide, by decide⟩

/-- C8 (amended): starting from construction with a positive
`smoothingWindow`, after any sequence of public operations in which no
`updateConfig` patch decreases `smoothingWindow`, both `baseFeeHistory` and
`rpsHistory` have length at most the current `smoothingWindow`. -/
theorem bounded_history_invariant (c : EIP1559InspiredConfig) (now0 : ℕ)
    (ops : List Op) (hsw : 0 < c.smoothingWindow) (hops : WindowSafeOps c ops) :
    (runOps (c, mkState c now0) ops).2.baseFeeHistory.length
        ≤ (runOps (c, mkState c now0) ops).1.smoothingWindow ∧
      (runOps (c, mkState c now0) ops).2.rpsHistory.length
        ≤ (runOps (c, mkState c now0) ops).1.smoothingWindow :=
  (runOps_history_bounded ops c (mkState c now0) hsw ⟨hsw, Nat.zero_le _⟩ hops).2

/-- C8 witness: the bound evaluated on the default config after a forced
adjustment and a quote. -/
theorem bounded_history_invariant_witness :
    0 < cfgStd.smoothingWindow ∧ WindowSafeOps cfgStd [Op.force 5, Op.quote 20000] ∧
      ((runOps (cfgStd, mkState cfgStd 0) [Op.force 5, Op.quote 20000]).2.baseFeeHistory.length
          ≤ (runOps (cfgStd, mkState cfgStd 0) [Op.force 5, Op.quote 20000]).1.smoothingWindow ∧
        (runOps (cfgStd, mkState cfgStd 0) [Op.force 5, Op.quote 20000]).2.rpsHistory.length
          ≤ (runOps (cfgStd, mkState cfgStd 0) [Op.force 5, Op.quote 20000]).1.smoothingWindow) :=
  ⟨by decide, trivial,
    bounded_history_invariant cfgStd 0 [Op.force 5, Op.quote 20000] (by decide) trivial⟩

/-- C8 counterexample: the claim as stated fails when `updateConfig` shrinks
the window: with `smoothingWindow = 2`, two forced adjustments fill
`baseFeeHistory` to length 2; updating `smoothingWindow` to 1 leaves the
length at 2, above the window. -/
theorem bounded_history_break :
    (runOps (cfgWin2, mkState cfgWin2 0)
          [Op.force 0, Op.force 0, Op.update { smoothingWindow := some 1 }]).1.smoothingWindow
        = 1 ∧
      (runOps (cfgWin2, mkState cfgWin2 0)
          [Op.force 0, Op.force 0,
            Op.update { smoothingWindow := some 1 }]).2.baseFeeHistory.length = 2 :=
  ⟨by decide, by decide⟩

/-- C10: the metrics read is pure: the snapshot reports the stored
`currentRPS` (it does not run the mutating `getCurrentRPS` path), a metrics
call leaves config and state untouched, and any number of metrics calls
between two quotes leaves the later quote (state and returned price)
unchanged. -/
theorem metrics_read_pure (c : EIP1559InspiredConfig) (s : EIP1559InspiredState)
    (now n : ℕ) :
    (getEIP1559Metrics c s).currentRPS = s.currentRPS ∧
      (getEIP1559Metrics c s).currentBaseFee = s.currentBaseFee ∧
      stepOp (c, s) Op.metricsOp = (c, s) ∧
      runOps (runOps (c, s) (List.replicate n Op.metricsOp)) [Op.quote now]
        = runOps (c, s) [Op.quote now] := by
  refine ⟨rfl, rfl, rfl, ?_⟩
  have h : runOps (c, s) (List.replicate n Op.metricsOp) = (c, s) := by
    induction n with
    | zero => rfl
    | succ k ihk => rw [List.replicate_succ]; exact ihk
  rw [h]

/-- C2: with a nonzero stored target rate, `adjustBaseFee` computes the
utilization `rate / target`, applies the three-way multiplier of the control
law (over capacity: `1 + min(excess * maxChangeRate * elasticity,
maxChangeRate)`; under target: `1 - min(shortage * maxChangeRate,
maxChangeRate)`; otherwise `1`), and both stores and returns
`currentFee * multiplier` clamped into `[minFee, maxFee]`. -/
theorem adjustBaseFee_control_law (c : EIP1559InspiredConfig)
    (s : EIP1559InspiredState) (now : ℕ) (h : s.targetRPS ≠ 0) :
    ((adjustBaseFee c s now).1).currentBaseFee
        = clamp (s.currentBaseFee
              * specMultiplier c ((getCurrentRPS c s now).2 / s.targetRPS))
            (priceNum c.minBaseFee) (priceNum c.maxBaseFee) ∧
      (adjustBaseFee c s now).2
        = clamp (s.currentBaseFee
              * specMultiplier c ((getCurrentRPS c s now).2 / s.targetRPS))
            (priceNum c.minBaseFee) (priceNum c.maxBaseFee) := by
  have ht : ¬ ((getCurrentRPS c s now).1).targetRPS = 0 := by
    rw [getCurrentRPS_targetRPS]; exact h
  unfold adjustBaseFee
  dsimp only
  rw [if_neg ht]
  dsimp only
  rw [getCurrentRPS_targetRPS, getCurrentRPS_currentBaseFee]
  unfold specMultiplier clamp priceNum
  rw [div_one]
  exact ⟨rfl, rfl⟩

/-- C2 witness: the control law evaluated on a burst of 15 requests against a
target of 10. -/
theorem adjustBaseFee_control_law_witness :
    stBurst.targetRPS ≠ 0 ∧
      (((adjustBaseFee cfgStd stBurst 500).1).currentBaseFee
          = clamp (stBurst.currentBaseFee
                * specMultiplier cfgStd
                    ((getCurrentRPS cfgStd stBurst 500).2 / stBurst.targetRPS))
              (priceNum cfgStd.minBaseFee) (priceNum cfgStd.maxBaseFee) ∧
        (adjustBaseFee cfgStd stBurst 500).2
          = clamp (stBurst.currentBaseFee
                * specMultiplier cfgStd
                    ((getCurrentRPS cfgStd stBurst 500).2 / stBurst.targetRPS))
              (priceNum cfgStd.minBaseFee) (priceNum cfgStd.maxBaseFee)) :=
  ⟨by decide, adjustBaseFee_control_law cfgStd stBurst 500 (by decide)⟩

/-- C4: `getCurrentRPS` sums the bucket counts with key at least
`now - 1000`; a positive sum is returned raw, and is appended to the
smoothing history (FIFO eviction beyond `smoothingWindow`) exactly when the
history is empty or the sum differs from the last sample by more than 1; a
zero sum returns the arithmetic mean of the history (0 when empty) and
leaves the history unchanged. -/
theorem getCurrentRPS_spec (c : EIP1559InspiredConfig) (s : EIP1559InspiredState)
    (now : ℕ) :
    (0 < trailingSecondSum s now →
        (getCurrentRPS c s now).2 = (trailingSecondSum s now : ℚ) ∧
          ((getCurrentRPS c s now).1).rpsHistory =
            (if s.rpsHistory = [] ∨
                1 < |(trailingSecondSum s now : ℚ) - (s.rpsHistory.getLast?).getD 0| then
              pushEvict s.rpsHistory (trailingSecondSum s now : ℚ) c.smoothingWindow
            else s.rpsHistory)) ∧
      (trailingSecondSum s now = 0 →
        (getCurrentRPS c s now).2 = historyMean s.rpsHistory ∧
          ((getCurrentRPS c s now).1).rpsHistory = s.rpsHistory) := by
  have hc : s.requestCounts.foldl
      (fun acc p => if now - 1000 ≤ p.1 then acc + p.2 else acc) 0
      = trailingSecondSum s now := by
    rw [foldl_count_eq]
    simp [trailingSecondSum]
  constructor
  · intro hpos
    unfold getCurrentRPS
    dsimp only
    rw [hc, if_pos hpos]
    refine ⟨rfl, ?_⟩
    dsimp only
    simp only [List.length_eq_zero]
  · intro hz
    unfold getCurrentRPS
    dsimp only
    rw [hc, if_neg (by omega)]
    refine ⟨?_, rfl⟩
    dsimp only
    rw [foldl_add_eq_sum, zero_add]
    unfold historyMean
    rcases eq_or_ne s.rpsHistory [] with he | he
    · simp [he]
    · rw [if_neg he, if_pos (List.length_pos.mpr he)]

/-- C4 witness: the positive branch on a 15-request burst and the zero branch
on the freshly constructed state. -/
theorem getCurrentRPS_spec_witness :
    (0 < trailingSecondSum stBurst 500 ∧
        ((getCurrentRPS cfgStd stBurst 500).2 = (trailingSecondSum stBurst 500 : ℚ) ∧
          ((getCurrentRPS cfgStd stBurst 500).1).rpsHistory =
            (if stBurst.rpsHistory = [] ∨
                1 < |(trailingSecondSum stBurst 500 : ℚ)
                    - (stBurst.rpsHistory.getLast?).getD 0| then
              pushEvict stBurst.rpsHistory (trailingSecondSum stBurst 500 : ℚ)
                cfgStd.smoothingWindow
            else stBurst.rpsHistory))) ∧
      (trailingSecondSum (mkState cfgStd 0) 5 = 0 ∧
        ((getCurrentRPS cfgStd (mkState cfgStd 0) 5).2
            = historyMean (mkState cfgStd 0).rpsHistory ∧
          ((getCurrentRPS cfgStd (mkState cfgStd 0) 5).1).rpsHistory
            = (mkState cfgStd 0).rpsHistory)) :=
  ⟨⟨by decide, (getCurrentRPS_spec cfgStd stBurst 500).1 (by decide)⟩,
    ⟨by decide, (getCurrentRPS_spec cfgStd (mkState cfgStd 0) 5).2 (by decide)⟩⟩

/-- C9: whenever an adjustment runs with the measured rate strictly above a
positive target (utilization above 1), the adjusted fee is at least the fee
before the adjustment, given the fee-bounds invariant as hypothesis together
with the spec-assumed nonnegativity of `minFee`, `maxChangeRate` and
`elasticityMultiplier`; hence sustained over-target traffic never decreases
the fee. -/
theorem congestion_monotone (c : EIP1559InspiredConfig) (s : EIP1559InspiredState)
    (now : ℕ) (htp : 0 < s.targetRPS)
    (hrate : s.targetRPS < (getCurrentRPS c s now).2)
    (hlo : priceNum c.minBaseFee ≤ s.currentBaseFee)
    (hhi : s.currentBaseFee ≤ priceNum c.maxBaseFee)
    (hmin : 0 ≤ priceNum c.minBaseFee)
    (hmcr : 0 ≤ c.maxChangeRate) (hel : 0 ≤ c.elasticityMultiplier) :
    s.currentBaseFee ≤ ((adjustBaseFee c s now).1).currentBaseFee := by
  have hfee0 : 0 ≤ s.currentBaseFee := hmin.trans hlo
  have ht : ¬ ((getCurrentRPS c s now).1).targetRPS = 0 := by
    rw [getCurrentRPS_targetRPS]; exact ne_of_gt htp
  have hu : 1 < (getCurrentRPS c s now).2 / s.targetRPS := (one_lt_div htp).mpr hrate
  unfold adjustBaseFee
  dsimp only
  rw [if_neg ht]
  dsimp only
  rw [getCurrentRPS_targetRPS, getCurrentRPS_currentBaseFee]
  rw [if_pos hu]
  have hm0 : 0 ≤ min (((getCurrentRPS c s now).2 / s.targetRPS - 1) / 1
      * c.maxChangeRate * c.elasticityMultiplier) c.maxChangeRate := by
    refine le_min ?_ hmcr
    have h1 : 0 ≤ ((getCurrentRPS c s now).2 / s.targetRPS - 1) / 1 := by
      rw [div_one]; linarith
    exact mul_nonneg (mul_nonneg h1 hmcr) hel
  have hfm : s.currentBaseFee ≤ s.currentBaseFee
      * (1 + min (((getCurrentRPS c s now).2 / s.targetRPS - 1) / 1
          * c.maxChangeRate * c.elasticityMultiplier) c.maxChangeRate) := by
    nlinarith [mul_nonneg hfee0 hm0]
  exact le_trans (le_min hfm hhi) (le_max_right _ _)

/-- C9 witness: 15 requests per second against a target of 10 on the default
config raise the fee from `0.001`. -/
theorem congestion_monotone_witness :
    (0 < stBurst.targetRPS ∧
        stBurst.targetRPS < (getCurrentRPS cfgStd stBurst 500).2 ∧
        priceNum cfgStd.minBaseFee ≤ stBurst.currentBaseFee ∧
        stBurst.currentBaseFee ≤ priceNum cfgStd.maxBaseFee ∧
        0 ≤ priceNum cfgStd.minBaseFee ∧
        0 ≤ cfgStd.maxChangeRate ∧ 0 ≤ cfgStd.elasticityMultiplier) ∧
      stBurst.currentBaseFee ≤ ((adjustBaseFee cfgStd stBurst 500).1).currentBaseFee :=
  ⟨⟨by decide, by decide, by decide, by decide, by decide, by decide, by decide⟩,
    congestion_monotone cfgStd stBurst 500 (by decide) (by decide) (by decide)
      (by decide) (by decide) (by decide) (by decide)⟩

end Autonome

